import Mathlib

set_option maxRecDepth 1000000
set_option maxHeartbeats 2000000

/-!
Shallow embedding of `scripts/generate_manifest.py`.

The script is a linear pipeline: walk a directory tree, hash every regular
file with SHA-256 (read in 4096-byte chunks), record each file's size, and
write a sorted, 2-space-indented JSON manifest (`manifest.json`) into the
root directory.

Bytes are modelled as `Nat` (values < 256), byte strings as `List Nat`,
machine words as `Nat` reduced mod 2^32 where overflow matters.  The
filesystem is modelled explicitly as a tree of named files and
subdirectories; the outcome of opening/reading a file (which may raise) is
an `Except String (List Nat)`, and the independent size lookup is an
`Option Nat` (`none` = the file no longer exists at that moment).
-/

/-! ## SHA-256 (the digest `hashlib.sha256` computes) -/

/-- Reduce a natural number modulo 2^32 (32-bit word arithmetic). -/
def w32 (x : Nat) : Nat := x % 4294967296

/-- Right-rotation of a 32-bit word by `n` positions. -/
def rotr (n x : Nat) : Nat := w32 ((x >>> n) ||| (x <<< (32 - n)))

/-- Lowercase sigma-0 message-schedule function of SHA-256. -/
def smallSigma0 (x : Nat) : Nat := (rotr 7 x) ^^^ (rotr 18 x) ^^^ (x >>> 3)

/-- Lowercase sigma-1 message-schedule function of SHA-256. -/
def smallSigma1 (x : Nat) : Nat := (rotr 17 x) ^^^ (rotr 19 x) ^^^ (x >>> 10)

/-- Uppercase Sigma-0 compression function of SHA-256. -/
def bigSigma0 (x : Nat) : Nat := (rotr 2 x) ^^^ (rotr 13 x) ^^^ (rotr 22 x)

/-- Uppercase Sigma-1 compression function of SHA-256. -/
def bigSigma1 (x : Nat) : Nat := (rotr 6 x) ^^^ (rotr 11 x) ^^^ (rotr 25 x)

/-- Choice function `Ch(e,f,g)` of SHA-256; `¬e` is xor with `2^32 - 1`. -/
def chFn (e f g : Nat) : Nat := (e &&& f) ^^^ ((e ^^^ 4294967295) &&& g)

/-- Majority function `Maj(a,b,c)` of SHA-256. -/
def majFn (a b c : Nat) : Nat := (a &&& b) ^^^ (a &&& c) ^^^ (b &&& c)

/-- The 64 SHA-256 round constants (fractional parts of cube roots of the
first 64 primes). -/
def shaK : List Nat :=
  [1116352408, 1899447441, 3049323471, 3921009573, 961987163, 1508970993,
   2453635748, 2870763221, 3624381080, 310598401, 607225278, 1426881987,
   1925078388, 2162078206, 2614888103, 3248222580, 3835390401, 4022224774,
   264347078, 604807628, 770255983, 1249150122, 1555081692, 1996064986,
   2554220882, 2821834349, 2952996808, 3210313671, 3336571891, 3584528711,
   113926993, 338241895, 666307205, 773529912, 1294757372, 1396182291,
   1695183700, 1986661051, 2177026350, 2456956037, 2730485921, 2820302411,
   3259730800, 3345764771, 3516065817, 3600352804, 4094571909, 275423344,
   430227734, 506948616, 659060556, 883997877, 958139571, 1322822218,
   1537002063, 1747873779, 1955562222, 2024104815, 2227730452, 2361852424,
   2428436474, 2756734187, 3204031479, 3329325298]

/-- The eight 32-bit working variables of the SHA-256 compression state. -/
structure Sha256State where
  a : Nat
  b : Nat
  c : Nat
  d : Nat
  e : Nat
  f : Nat
  g : Nat
  h : Nat
deriving Repr, DecidableEq

/-- The SHA-256 initial hash value (fractional parts of square roots of the
first 8 primes). -/
def initState : Sha256State :=
  ⟨1779033703, 3144134277, 1013904242, 2773480762,
   1359893119, 2600822924, 528734635, 1541459225⟩

/-- One round of the SHA-256 compression loop on round constant/word pair `kw`. -/
def shaStep (s : Sha256State) (kw : Nat × Nat) : Sha256State :=
  let t1 := w32 (s.h + bigSigma1 s.e + chFn s.e s.f s.g + kw.1 + kw.2)
  let t2 := w32 (bigSigma0 s.a + majFn s.a s.b s.c)
  ⟨w32 (t1 + t2), s.a, s.b, s.c, w32 (s.d + t1), s.e, s.f, s.g⟩

/-- Group a byte sequence into big-endian 32-bit words. -/
def wordsOfBytes : List Nat → List Nat
  | b0 :: b1 :: b2 :: b3 :: rest =>
      (b0 * 16777216 + b1 * 65536 + b2 * 256 + b3) :: wordsOfBytes rest
  | _ => []

/-- Append the next message-schedule word
`w[i] = sigma1 w[i-2] + w[i-7] + sigma0 w[i-15] + w[i-16]` mod 2^32. -/
def scheduleStep (ws : List Nat) : List Nat :=
  ws ++ [w32 (smallSigma1 (ws.getD (ws.length - 2) 0) + ws.getD (ws.length - 7) 0 +
              smallSigma0 (ws.getD (ws.length - 15) 0) + ws.getD (ws.length - 16) 0)]

/-- Extend the 16 words of a block to the full 64-word message schedule. -/
def schedule (w16 : List Nat) : List Nat :=
  (List.range 48).foldl (fun ws _ => scheduleStep ws) w16

/-- Compress one 64-byte block into the running SHA-256 state. -/
def compressBlock (s : Sha256State) (block : List Nat) : Sha256State :=
  let t := ((shaK.zip (schedule (wordsOfBytes block))).foldl shaStep s)
  ⟨w32 (s.a + t.a), w32 (s.b + t.b), w32 (s.c + t.c), w32 (s.d + t.d),
   w32 (s.e + t.e), w32 (s.f + t.f), w32 (s.g + t.g), w32 (s.h + t.h)⟩

/-- Big-endian 8-byte encoding of a 64-bit length. -/
def be64 (n : Nat) : List Nat :=
  [n / 72057594037927936 % 256, n / 281474976710656 % 256,
   n / 1099511627776 % 256, n / 4294967296 % 256,
   n / 16777216 % 256, n / 65536 % 256, n / 256 % 256, n % 256]

/-- SHA-256 padding: append `0x80`, zeros to 56 mod 64, then the bit length
as a big-endian 64-bit integer. -/
def padMessage (msg : List Nat) : List Nat :=
  msg ++ 128 :: List.replicate ((120 - (msg.length + 1) % 64) % 64) 0 ++
    be64 (8 * msg.length)

/-- Core of `chunksOf`, structurally recursive on a fuel bound: while the
list is nonempty, take the next `n` elements as a chunk.  For `0 < n` every
step consumes at least one element, so any `fuel ≥ l.length` yields the
full chunking. -/
def chunksOfAux (n : Nat) : Nat → List α → List (List α)
  | _, [] => []
  | 0, _ :: _ => []
  | fuel + 1, x :: rest => (x :: rest).take n :: chunksOfAux n fuel ((x :: rest).drop n)

/-- Split a list into consecutive chunks of `n` elements (the last chunk may
be shorter).  This models a read loop that pulls `n` bytes at a time until
the read comes back empty; the loop runs at most `l.length` times. -/
def chunksOf (n : Nat) (l : List α) : List (List α) := chunksOfAux n l.length l

/-- Big-endian bytes of one 32-bit word. -/
def wordBytes (w : Nat) : List Nat :=
  [w / 16777216 % 256, w / 65536 % 256, w / 256 % 256, w % 256]

/-- The 32-byte SHA-256 digest of a byte sequence. -/
def sha256Bytes (msg : List Nat) : List Nat :=
  let s := (chunksOf 64 (padMessage msg)).foldl compressBlock initState
  wordBytes s.a ++ wordBytes s.b ++ wordBytes s.c ++ wordBytes s.d ++
  wordBytes s.e ++ wordBytes s.f ++ wordBytes s.g ++ wordBytes s.h

/-- The sixteen lowercase hexadecimal digit characters. -/
def hexChars : List Char := "0123456789abcdef".data

/-- The lowercase hexadecimal digit for a value below 16. -/
def hexDigit (n : Nat) : Char := hexChars.getD n '0'

/-- Two lowercase hexadecimal characters for one byte. -/
def byteHex (b : Nat) : List Char := [hexDigit (b / 16), hexDigit (b % 16)]

/-- The lowercase hexadecimal SHA-256 digest of a byte sequence, as
`hexdigest()` returns it: 64 characters. -/
def sha256hex (msg : List Nat) : String :=
  ⟨((sha256Bytes msg).map byteHex).flatten⟩

/-- Model of a `hashlib.sha256()` object.  Its observable behaviour is fully
determined by the concatenation of the chunks fed to `update`: `hexdigest()`
returns the digest of exactly those bytes. -/
structure Sha256Hash where
  fed : List Nat
deriving Repr, DecidableEq

/-- Model of `hashlib.sha256()`: a fresh hash object with no bytes fed. -/
def Sha256Hash.new : Sha256Hash := ⟨[]⟩

/-- Model of `sha256_hash.update(chunk)`. -/
def Sha256Hash.update (hs : Sha256Hash) (chunk : List Nat) : Sha256Hash :=
  ⟨hs.fed ++ chunk⟩

/-- Model of `sha256_hash.hexdigest()`. -/
def Sha256Hash.hexdigest (hs : Sha256Hash) : String := sha256hex hs.fed

/-- Embedding of `calculate_sha256` (lines 8-17).  The effect of
`open`/`read` on the path is summarised by its outcome: `Except.ok content`
when every 4096-byte read succeeds and yields `content` in total, or
`Except.error e` when an exception with message `e` is raised; the
`except Exception` arm returns the sentinel string. -/
def calculate_sha256 (readResult : Except String (List Nat)) : String :=
  match readResult with
  | Except.ok content =>
      (((chunksOf 4096 content).foldl Sha256Hash.update Sha256Hash.new)).hexdigest
  | Except.error e => "ERROR: " ++ e

/-! ## Filesystem model -/

instance exceptDecEq {ε α : Type} [DecidableEq ε] [DecidableEq α] :
    DecidableEq (Except ε α) := fun x y =>
  match x, y with
  | .ok a, .ok b =>
      if h : a = b then isTrue (by rw [h]) else isFalse (fun hh => h (Except.ok.inj hh))
  | .ok _, .error _ => isFalse (fun hh => Except.noConfusion hh)
  | .error _, .ok _ => isFalse (fun hh => Except.noConfusion hh)
  | .error a, .error b =>
      if h : a = b then isTrue (by rw [h]) else isFalse (fun hh => h (Except.error.inj hh))

/-- The facts about one on-disk file that the script observes: the outcome
of opening and reading it (full byte content, or the raised exception's
message), and the outcome of the later, independent size lookup
(`os.path.getsize` guarded by `os.path.exists`): `some size`, or `none`
when the file no longer exists at that moment. -/
structure FileState where
  readResult : Except String (List Nat)
  sizeInfo : Option Nat
deriving Repr, DecidableEq

/-- A directory: named regular files with their observed states, and named
subdirectories.  The two lists appear in the (arbitrary) order in which the
operating system enumerates the directory. -/
inductive DirTree where
  | node : List (String × FileState) → List (String × DirTree) → DirTree
deriving Repr

/-- Join a (possibly empty) relative-path string with a further component,
as `str(Path(root) / name)` renders it. -/
def joinName (pre name : String) : String :=
  if pre = "" then name else pre ++ "/" ++ name

mutual
/-- Model of the `os.walk` enumeration of lines 33-39: every regular file
under the tree, paired with its path relative to the walk root (components
joined by `/`), parents before subdirectories. -/
def walkTree (pre : String) : DirTree → List (String × FileState)
  | .node fs ds => fs.map (fun p => (joinName pre p.1, p.2)) ++ walkDirs pre ds

/-- Walk a list of named subdirectories in enumeration order. -/
def walkDirs (pre : String) : List (String × DirTree) → List (String × FileState)
  | [] => []
  | (name, sub) :: rest => walkTree (joinName pre name) sub ++ walkDirs pre rest
end

/-! ## String comparison (Python compares strings by code point) -/

/-- Lexicographic comparison of character lists by Unicode code point,
exactly Python's `<=` on strings. -/
def charListLe : List Char → List Char → Bool
  | [], _ => true
  | _ :: _, [] => false
  | a :: as, b :: bs =>
      if a.toNat < b.toNat then true
      else if b.toNat < a.toNat then false
      else charListLe as bs

/-- Python's `<=` on strings. -/
def strLe (a b : String) : Bool := charListLe a.data b.data

/-- Ordering of key-value pairs by key, the comparison `all_files.sort`
performs via `key=lambda x: x[0]`. -/
def keyLe {α : Type} (p q : String × α) : Prop := strLe p.1 q.1 = true

instance {α : Type} : DecidableRel (@keyLe α) := fun p q =>
  inferInstanceAs (Decidable (strLe p.1 q.1 = true))

/-! ## The manifest -/

/-- One `manifest["files"]` entry: the checksum field (a digest, or the
`ERROR:` sentinel) and the recorded size. -/
structure FileRecord where
  sha256 : String
  size_bytes : Nat
deriving Repr, DecidableEq

/-- The manifest dictionary built by lines 26-30 and filled by the loop. -/
structure Manifest where
  timestamp : String
  total_files : Nat
  files : List (String × FileRecord)
deriving Repr, DecidableEq

/-- Python `dict` assignment `d[k] = v`: overwrite in place when the key is
present, append otherwise. -/
def dictInsert (m : List (String × FileRecord)) (k : String) (v : FileRecord) :
    List (String × FileRecord) :=
  if k ∈ m.map Prod.fst then
    m.map (fun p => if p.1 = k then (k, v) else p)
  else m ++ [(k, v)]

/-- The record stored for one walked file (lines 44-49): checksum from the
chunked read, size from the guarded size lookup (0 when the file no longer
exists). -/
def recordOf (st : FileState) : FileRecord :=
  ⟨calculate_sha256 st.readResult, st.sizeInfo.getD 0⟩

/-- The checksum loop of lines 43-51: fold over the sorted file list,
assigning `manifest["files"][rel_path]` and incrementing
`manifest["total_files"]`. -/
def processFiles (acc : List (String × FileRecord) × Nat) :
    List (String × FileState) → List (String × FileRecord) × Nat
  | [] => acc
  | (rel, st) :: rest => processFiles (dictInsert acc.1 rel (recordOf st), acc.2 + 1) rest

/-- Characters after the first `_`, as `name.split('_', 1)[1]` returns them. -/
def afterFirstUnderscore : List Char → List Char
  | [] => []
  | c :: cs => if c = '_' then cs else afterFirstUnderscore cs

/-- Line 27: `stage_path.name.split('_', 1)[1] if '_' in stage_path.name
else "unknown"`. -/
def timestampOf (name : String) : String :=
  if name.data.contains '_' then ⟨afterFirstUnderscore name.data⟩ else "unknown"

/-- Model of `Path(p).name`: drop trailing separators, take the final
component, which is empty for the filesystem root and for `.`.  (Pathlib's
normalisation of inner `.` components and of a bare `..` is not modelled;
no claim involves such a root path.) -/
def pathName (p : String) : String :=
  let r := p.data.reverse.dropWhile (fun c => c = '/')
  let nm := (r.takeWhile (fun c => c ≠ '/')).reverse
  if nm = ['.'] then "" else ⟨nm⟩

/-! ## JSON serialisation (`json.dump(manifest, f, indent=2, sort_keys=True)`) -/

/-- Four lowercase hex digits of a code unit, for a `\u` escape. -/
def hexDigit4 (n : Nat) : List Char :=
  [hexDigit (n / 4096 % 16), hexDigit (n / 256 % 16), hexDigit (n / 16 % 16), hexDigit (n % 16)]

/-- Python `json` string escaping with its default `ensure_ascii=True`:
shorthand escapes, `\u` escapes for other control and all non-ASCII
characters (surrogate pairs beyond the basic plane). -/
def escapeChar (c : Char) : List Char :=
  if c = '"' then ['\\', '"']
  else if c = '\\' then ['\\', '\\']
  else if c = '\n' then ['\\', 'n']
  else if c = '\t' then ['\\', 't']
  else if c = '\r' then ['\\', 'r']
  else if c.toNat = 8 then ['\\', 'b']
  else if c.toNat = 12 then ['\\', 'f']
  else if c.toNat < 32 ∨ 126 < c.toNat then
    if c.toNat < 65536 then '\\' :: 'u' :: hexDigit4 c.toNat
    else
      ('\\' :: 'u' :: hexDigit4 (55296 + (c.toNat - 65536) / 1024)) ++
      ('\\' :: 'u' :: hexDigit4 (56320 + (c.toNat - 65536) % 1024))
  else [c]

/-- A JSON string literal for `s`, double-quoted and escaped. -/
def renderString (s : String) : String :=
  ⟨'"' :: (s.data.map escapeChar).flatten ++ ['"']⟩

/-- One entry of the `files` object at its nesting depth (2): the relative
path as key, then an object holding exactly the `sha256` and `size_bytes`
fields (in sorted key order), indented by 2 spaces per level. -/
def renderEntry (p : String × FileRecord) : String :=
  "    " ++ renderString p.1 ++ ": \x7b\n      \"sha256\": " ++ renderString p.2.sha256 ++
  ",\n      \"size_bytes\": " ++ toString p.2.size_bytes ++ "\n    \x7d"

/-- The `files` object with its keys sorted, as `sort_keys=True` emits it. -/
def renderFiles (files : List (String × FileRecord)) : String :=
  match List.insertionSort keyLe files with
  | [] => "\x7b\x7d"
  | l => "\x7b\n" ++ String.intercalate ",\n" (l.map renderEntry) ++ "\n  \x7d"

/-- The whole manifest document: the three top-level keys in sorted order
(`files` < `timestamp` < `total_files`), 2-space indentation, no trailing
newline. -/
def renderManifest (m : Manifest) : String :=
  "\x7b\n  \"files\": " ++ renderFiles m.files ++ ",\n  \"timestamp\": " ++
  renderString m.timestamp ++ ",\n  \"total_files\": " ++ toString m.total_files ++ "\n\x7d"

/-! ## The whole run -/

/-- The externally visible outcome of a successful run: the in-memory
manifest, the path and full text of the file written, and the summary line
printed to standard output. -/
structure RunOutput where
  manifest : Manifest
  writtenPath : String
  writtenText : String
  stdoutLine : String
deriving Repr, DecidableEq

/-- Embedding of `generate_manifest` (lines 19-59).  `dir` is the state of
the filesystem under `stage_dir`: `none` when the stage directory does not
exist (the `sys.exit(1)` branch, returned as `Except.error` with the exit
status and the diagnostic printed to stderr — nothing is written in that
case), `some tree` otherwise.  The write of `manifest.json` is assumed to
succeed, as in every claim considered here. -/
def generate_manifest (stage_dir : String) (dir : Option DirTree) :
    Except (Nat × String) RunOutput :=
  match dir with
  | none => Except.error (1, "ERROR: Stage directory " ++ stage_dir ++ " does not exist")
  | some tree =>
      let all_files := List.insertionSort keyLe (walkTree "" tree)
      let fin := processFiles ([], 0) all_files
      let manifest : Manifest := ⟨timestampOf (pathName stage_dir), fin.2, fin.1⟩
      Except.ok ⟨manifest, joinName stage_dir "manifest.json", renderManifest manifest,
        "Manifest generated: " ++ toString fin.2 ++ " files"⟩

/-- The externally visible file writes of a run: the error branch exits
before anything is written; the success branch writes exactly the manifest. -/
def writtenFiles (r : Except (Nat × String) RunOutput) : List (String × String) :=
  match r with
  | .ok out => [(out.writtenPath, out.writtenText)]
  | .error _ => []

/-- Reading `manifest["files"][k]` from the association list. -/
def lookupKey (k : String) : List (String × FileRecord) → Option FileRecord
  | [] => none
  | (k2, v) :: rest => if k2 = k then some v else lookupKey k rest

/-- The sorted file list of line 40 (`all_files.sort(key=lambda x: x[0])`):
a stable sort by relative path under Python's string order. -/
def sortedWalk (t : DirTree) : List (String × FileState) :=
  List.insertionSort keyLe (walkTree "" t)

/-- The manifest a successful run over `t` produces, in closed form. -/
def manifestOf (p : String) (t : DirTree) : Manifest :=
  ⟨timestampOf (pathName p), (walkTree "" t).length,
   (sortedWalk t).map (fun q => (q.1, recordOf q.2))⟩

/-- The portion of a string after its first underscore, stated directly in
the spec's words (drop everything up to and including the first `_`), for
comparison with the split performed on line 27. -/
def specAfterUnderscore (name : String) : String :=
  ⟨(name.data.dropWhile (fun c => c ≠ '_')).tail⟩

/-! ## Concrete fixtures for the spec's scenarios -/

/-- The bytes of `"hi"`. -/
def contentHi : List Nat := [104, 105]

/-- The bytes of `"bye"`. -/
def contentBye : List Nat := [98, 121, 101]

/-- State of `a.txt`: readable content `"hi"`, present at size lookup. -/
def stateA : FileState := ⟨Except.ok contentHi, some 2⟩

/-- State of `sub/b.txt`: readable content `"bye"`, present at size lookup. -/
def stateB : FileState := ⟨Except.ok contentBye, some 3⟩

/-- The spec's scenario root: `a.txt` (`"hi"`) and `sub/b.txt` (`"bye"`). -/
def scenarioTree : DirTree :=
  DirTree.node [("a.txt", stateA)] [("sub", DirTree.node [("b.txt", stateB)] [])]

/-- State of a file whose read raises (permissions revoked before hashing). -/
def stateErr : FileState := ⟨Except.error "Permission denied", some 5⟩

/-- State of a file that vanished between hashing and the size lookup. -/
def stateGone : FileState := ⟨Except.ok [107], none⟩

/-- A root with one readable file and one unreadable file. -/
def errorTree : DirTree := DirTree.node [("a.txt", stateA), ("bad.txt", stateErr)] []

/-- The same root as `errorTree`, enumerated by the OS in the other order. -/
def errorTree2 : DirTree := DirTree.node [("bad.txt", stateErr), ("a.txt", stateA)] []

/-- A root with one file that vanished before its size lookup. -/
def goneTree : DirTree := DirTree.node [("gone.txt", stateGone)] []

/-! ## Helper lemmas: chunked reading feeds the hash the whole content -/

theorem chunksOfAux_flatten {α : Type} (n : Nat) (hn : 0 < n) :
    ∀ (fuel : Nat) (l : List α), l.length ≤ fuel → (chunksOfAux n fuel l).flatten = l := by
  intro fuel
  induction fuel with
  | zero =>
    intro l hl
    cases l with
    | nil => rfl
    | cons x t => simp at hl
  | succ f ih =>
    intro l hl
    cases l with
    | nil => rfl
    | cons x t =>
      simp only [chunksOfAux, List.flatten_cons]
      rw [ih ((x :: t).drop n) ?_]
      · exact List.take_append_drop n (x :: t)
      · simp only [List.length_drop]
        simp only [List.length_cons] at hl ⊢
        omega

theorem chunksOf_flatten {α : Type} (n : Nat) (hn : 0 < n) (l : List α) :
    (chunksOf n l).flatten = l :=
  chunksOfAux_flatten n hn l.length l le_rfl

theorem foldl_update (c : Sha256Hash) (chunks : List (List Nat)) :
    chunks.foldl Sha256Hash.update c = ⟨c.fed ++ chunks.flatten⟩ := by
  induction chunks generalizing c with
  | nil => cases c; simp
  | cons ch rest ih => simp [Sha256Hash.update, ih, List.append_assoc]

/-- Feeding the 4096-byte chunks of `content` to the hash one by one yields
the digest of `content` itself. -/
theorem calculate_sha256_ok (content : List Nat) :
    calculate_sha256 (Except.ok content) = sha256hex content := by
  simp [calculate_sha256, Sha256Hash.new, foldl_update, Sha256Hash.hexdigest,
    chunksOf_flatten 4096 (by omega) content]

/-! ## Helper lemmas: digests are 64 lowercase hexadecimal characters -/

theorem wordBytes_lt (w : Nat) : ∀ b ∈ wordBytes w, b < 256 := by
  intro b hb
  simp only [wordBytes, List.mem_cons, List.not_mem_nil, or_false] at hb
  rcases hb with rfl | rfl | rfl | rfl <;> exact Nat.mod_lt _ (by omega)

theorem sha256Bytes_lt (msg : List Nat) : ∀ b ∈ sha256Bytes msg, b < 256 := by
  intro b hb
  unfold sha256Bytes at hb
  simp only [List.mem_append] at hb
  rcases hb with (((((((h | h) | h) | h) | h) | h) | h) | h) <;> exact wordBytes_lt _ b h

theorem sha256Bytes_length (msg : List Nat) : (sha256Bytes msg).length = 32 := by
  unfold sha256Bytes
  simp [wordBytes]

theorem hexDigit_mem (n : Nat) (h : n < 16) : hexDigit n ∈ hexChars := by
  interval_cases n <;> decide

theorem byteHex_mem (b : Nat) (hb : b < 256) : ∀ c ∈ byteHex b, c ∈ hexChars := by
  intro c hc
  simp only [byteHex, List.mem_cons, List.not_mem_nil, or_false] at hc
  rcases hc with rfl | rfl
  · exact hexDigit_mem _ (by omega)
  · exact hexDigit_mem _ (Nat.mod_lt _ (by omega))

theorem map_length_byteHex : ∀ l : List Nat, (l.map byteHex).map List.length =
    List.replicate l.length 2
  | [] => rfl
  | b :: rest => by simp [byteHex, List.replicate_succ, map_length_byteHex rest]

theorem sha256hex_length (msg : List Nat) : (sha256hex msg).length = 64 := by
  show (((sha256Bytes msg).map byteHex).flatten).length = 64
  rw [List.length_flatten, map_length_byteHex, sha256Bytes_length]
  simp

theorem sha256hex_chars (msg : List Nat) : ∀ c ∈ (sha256hex msg).data, c ∈ hexChars := by
  intro c hc
  simp only [sha256hex, List.mem_flatten, List.mem_map] at hc
  obtain ⟨l, ⟨b, hb, rfl⟩, hcl⟩ := hc
  exact byteHex_mem b (sha256Bytes_lt msg b hb) c hcl

/-! ## Helper lemmas: the string order is a total preorder -/

theorem charListLe_refl : ∀ a : List Char, charListLe a a = true := by
  intro a
  induction a with
  | nil => rfl
  | cons x xs ih => simp [charListLe, ih]

theorem charListLe_total : ∀ a b : List Char, charListLe a b = true ∨ charListLe b a = true := by
  intro a
  induction a with
  | nil => intro b; left; cases b <;> rfl
  | cons x xs ih =>
    intro b
    cases b with
    | nil => right; rfl
    | cons y ys =>
      rcases Nat.lt_trichotomy x.toNat y.toNat with h | h | h
      · left; simp [charListLe, h]
      · rcases ih ys with h2 | h2
        · left; simp [charListLe, h, Nat.lt_irrefl, h2]
        · right; simp [charListLe, h, Nat.lt_irrefl, h2]
      · right; simp [charListLe, h]

theorem charListLe_trans : ∀ a b c : List Char,
    charListLe a b = true → charListLe b c = true → charListLe a c = true := by
  intro a
  induction a with
  | nil => intro b c _ _; cases c <;> rfl
  | cons x xs ih =>
    intro b c hab hbc
    cases b with
    | nil => simp [charListLe] at hab
    | cons y ys =>
      cases c with
      | nil => simp [charListLe] at hbc
      | cons z zs =>
        by_cases h1 : x.toNat < y.toNat <;> by_cases h2 : y.toNat < z.toNat
        · simp [charListLe, show x.toNat < z.toNat by omega]
        · by_cases h3 : z.toNat < y.toNat
          · simp [charListLe, h2, h3] at hbc
          · have hyz : y.toNat = z.toNat := by omega
            simp [charListLe, show x.toNat < z.toNat by omega]
        · by_cases h3 : y.toNat < x.toNat
          · simp [charListLe, h1, h3] at hab
          · have hxy : x.toNat = y.toNat := by omega
            simp [charListLe, show x.toNat < z.toNat by omega]
        · by_cases h3 : y.toNat < x.toNat
          · simp [charListLe, h1, h3] at hab
          · by_cases h4 : z.toNat < y.toNat
            · simp [charListLe, h2, h4] at hbc
            · have hxy : x.toNat = y.toNat := by omega
              have hyz : y.toNat = z.toNat := by omega
              simp [charListLe, h1, h3, hxy, hyz, Nat.lt_irrefl] at hab hbc ⊢
              exact ih ys zs hab hbc

theorem char_toNat_inj {x y : Char} (h : x.toNat = y.toNat) : x = y :=
  Char.eq_of_val_eq (UInt32.ext h)

theorem charListLe_antisymm : ∀ a b : List Char,
    charListLe a b = true → charListLe b a = true → a = b := by
  intro a
  induction a with
  | nil =>
    intro b _ hba
    cases b with
    | nil => rfl
    | cons y ys => simp [charListLe] at hba
  | cons x xs ih =>
    intro b hab hba
    cases b with
    | nil => simp [charListLe] at hab
    | cons y ys =>
      by_cases h1 : x.toNat < y.toNat
      · simp [charListLe, h1, show ¬(y.toNat < x.toNat) by omega] at hba
      · by_cases h2 : y.toNat < x.toNat
        · simp [charListLe, h2, h1] at hab
        · have hxy : x = y := char_toNat_inj (by omega)
          subst hxy
          simp [charListLe, Nat.lt_irrefl] at hab hba
          rw [ih ys hab hba]

theorem strLe_antisymm {a b : String} (hab : strLe a b = true) (hba : strLe b a = true) :
    a = b := by
  cases a; cases b
  exact congrArg String.mk (charListLe_antisymm _ _ hab hba)

instance keyLe_isTotal {α : Type} : IsTotal (String × α) keyLe :=
  ⟨fun p q => charListLe_total p.1.data q.1.data⟩

instance keyLe_isTrans {α : Type} : IsTrans (String × α) keyLe :=
  ⟨fun p q r => charListLe_trans p.1.data q.1.data r.1.data⟩

/-! ## Helper lemmas: the processing loop on distinct keys -/

theorem dictInsert_fresh (m : List (String × FileRecord)) (k : String) (v : FileRecord)
    (h : k ∉ m.map Prod.fst) : dictInsert m k v = m ++ [(k, v)] := by
  simp [dictInsert, h]

theorem processFiles_eq :
    ∀ (l : List (String × FileState)) (acc : List (String × FileRecord) × Nat),
    (l.map Prod.fst).Nodup → (∀ k ∈ l.map Prod.fst, k ∉ acc.1.map Prod.fst) →
    processFiles acc l =
      (acc.1 ++ l.map (fun q => (q.1, recordOf q.2)), acc.2 + l.length) := by
  intro l
  induction l with
  | nil => intro acc _ _; simp [processFiles]
  | cons p rest ih =>
    intro acc hnd hfresh
    obtain ⟨rel, st⟩ := p
    simp only [List.map_cons, List.nodup_cons] at hnd
    simp only [processFiles]
    rw [dictInsert_fresh _ _ _ (hfresh rel (by simp))]
    rw [ih (acc.1 ++ [(rel, recordOf st)], acc.2 + 1) hnd.2 ?_]
    · refine Prod.ext ?_ ?_
      · simp [List.append_assoc]
      · simp only [List.length_cons]
        omega
    · intro k hk
      simp only [List.map_append, List.mem_append, List.map_cons, List.map_nil] at *
      rintro (hacc | hsing)
      · exact hfresh k (List.mem_cons.mpr (Or.inr hk)) hacc
      · simp at hsing
        subst hsing
        exact hnd.1 hk

theorem sortedWalk_perm (t : DirTree) : (sortedWalk t).Perm (walkTree "" t) :=
  List.perm_insertionSort keyLe _

theorem sortedWalk_keys_nodup (t : DirTree) (h : ((walkTree "" t).map Prod.fst).Nodup) :
    ((sortedWalk t).map Prod.fst).Nodup :=
  (((sortedWalk_perm t).map Prod.fst).nodup_iff).mpr h

theorem sortedWalk_sorted (t : DirTree) : (sortedWalk t).Sorted keyLe :=
  List.sorted_insertionSort keyLe _

theorem sortedWalk_keys_sorted (t : DirTree) :
    List.Pairwise (fun a b : String => strLe a b = true) ((sortedWalk t).map Prod.fst) :=
  (sortedWalk_sorted t).map Prod.fst (fun _ _ h => h)

/-- Closed form of a successful run on an existing stage directory. -/
theorem generate_manifest_some (p : String) (t : DirTree)
    (h : ((walkTree "" t).map Prod.fst).Nodup) :
    generate_manifest p (some t) =
      Except.ok ⟨manifestOf p t, joinName p "manifest.json", renderManifest (manifestOf p t),
        "Manifest generated: " ++ toString (walkTree "" t).length ++ " files"⟩ := by
  have hnd := sortedWalk_keys_nodup t h
  have hpf := processFiles_eq (sortedWalk t) ([], 0) hnd (by simp)
  simp only [sortedWalk] at hpf
  simp only [generate_manifest, manifestOf, sortedWalk, hpf]
  simp [(sortedWalk_perm t).length_eq, sortedWalk]

/-! ## Helper lemmas: key lookup in the produced mapping -/

theorem lookupKey_of_mem :
    ∀ (m : List (String × FileRecord)) (k : String) (v : FileRecord),
    (m.map Prod.fst).Nodup → (k, v) ∈ m → lookupKey k m = some v := by
  intro m
  induction m with
  | nil => intro k v _ hv; simp at hv
  | cons p rest ih =>
    intro k v hnd hv
    obtain ⟨k2, v2⟩ := p
    simp only [List.map_cons, List.nodup_cons] at hnd
    rcases List.mem_cons.mp hv with heq | hmem
    · cases heq
      simp [lookupKey]
    · have hne : k2 ≠ k := by
        intro hkk
        subst hkk
        exact hnd.1 (List.mem_map_of_mem Prod.fst hmem)
      simp [lookupKey, hne, ih k v hnd.2 hmem]

theorem mem_manifest_files (t : DirTree) (rel : String) (st : FileState)
    (hmem : (rel, st) ∈ walkTree "" t) :
    (rel, recordOf st) ∈ (sortedWalk t).map (fun q => (q.1, recordOf q.2)) :=
  List.mem_map.mpr ⟨(rel, st), ((sortedWalk_perm t).mem_iff).mpr hmem, rfl⟩

theorem manifestOf_files_keys (p : String) (t : DirTree) :
    (manifestOf p t).files.map Prod.fst = (sortedWalk t).map Prod.fst := by
  simp only [manifestOf, List.map_map]
  rfl

theorem manifestOf_lookup (p : String) (t : DirTree)
    (h : ((walkTree "" t).map Prod.fst).Nodup) (rel : String) (st : FileState)
    (hmem : (rel, st) ∈ walkTree "" t) :
    lookupKey rel (manifestOf p t).files = some (recordOf st) := by
  apply lookupKey_of_mem
  · rw [manifestOf_files_keys]
    exact sortedWalk_keys_nodup t h
  · exact mem_manifest_files t rel st hmem

/-! ## Helper lemmas: a sorted list with distinct keys is determined by its
multiset of entries -/

theorem sorted_perm_nodup_eq {α : Type} :
    ∀ (l1 l2 : List (String × α)), l1.Perm l2 → l1.Sorted keyLe → l2.Sorted keyLe →
      (l1.map Prod.fst).Nodup → l1 = l2 := by
  intro l1
  induction l1 with
  | nil =>
    intro l2 hp _ _ _
    exact (hp.nil_eq).symm ▸ rfl
  | cons a t1 ih =>
    intro l2 hp hs1 hs2 hnd
    cases l2 with
    | nil => simpa using hp.eq_nil
    | cons b t2 =>
      have hab : a = b := by
        by_contra hne
        have ha2 : a ∈ b :: t2 := hp.subset (by simp)
        have hb1 : b ∈ a :: t1 := hp.symm.subset (by simp)
        have ha : a ∈ t2 := by
          rcases List.mem_cons.mp ha2 with h | h
          · exact absurd h hne
          · exact h
        have hb : b ∈ t1 := by
          rcases List.mem_cons.mp hb1 with h | h
          · exact absurd h.symm hne
          · exact h
        have h1 : keyLe a b := (List.pairwise_cons.mp hs1).1 b hb
        have h2 : keyLe b a := (List.pairwise_cons.mp hs2).1 a ha
        have hk : a.1 = b.1 := strLe_antisymm h1 h2
        exact (List.nodup_cons.mp ((List.map_cons Prod.fst a t1) ▸ hnd)).1
          (hk ▸ List.mem_map_of_mem Prod.fst hb)
      subst hab
      rw [ih t2 hp.cons_inv hs1.of_cons hs2.of_cons
        (List.nodup_cons.mp ((List.map_cons Prod.fst a t1) ▸ hnd)).2]

theorem sortedWalk_eq_of_perm (t1 t2 : DirTree)
    (hperm : (walkTree "" t1).Perm (walkTree "" t2))
    (hnd : ((walkTree "" t1).map Prod.fst).Nodup) : sortedWalk t1 = sortedWalk t2 :=
  sorted_perm_nodup_eq _ _
    ((sortedWalk_perm t1).trans (hperm.trans (sortedWalk_perm t2).symm))
    (sortedWalk_sorted t1) (sortedWalk_sorted t2) (sortedWalk_keys_nodup t1 hnd)

/-! ## Remaining helper lemmas -/

theorem afterFirstUnderscore_eq_spec :
    ∀ cs : List Char, afterFirstUnderscore cs = (cs.dropWhile (fun c => c ≠ '_')).tail := by
  intro cs
  induction cs with
  | nil => rfl
  | cons c rest ih =>
    by_cases h : c = '_'
    · subst h
      simp [afterFirstUnderscore, List.dropWhile]
    · simp [afterFirstUnderscore, List.dropWhile, h, ih]

theorem error_string_take (e : String) : ("ERROR: " ++ e).data.take 7 = "ERROR: ".data := by
  cases e
  rfl

/-! ## The claims -/

/-- C1: for every file whose content is readable, the recorded checksum is
the SHA-256 digest of the file's full byte content — feeding the digest
object the file's 4096-byte chunks one at a time yields exactly the digest
of the whole content — returned as a lowercase hexadecimal string of 64
characters.  (The concrete scenario with `a.txt` = "hi" and `sub/b.txt` =
"bye" is evaluated in the witness.) -/
theorem readable_checksum_is_sha256 (p : String) (t : DirTree)
    (hnd : ((walkTree "" t).map Prod.fst).Nodup)
    (rel : String) (st : FileState) (content : List Nat)
    (hmem : (rel, st) ∈ walkTree "" t) (hread : st.readResult = Except.ok content) :
    (generate_manifest p (some t)).map (fun out => lookupKey rel out.manifest.files) =
      Except.ok (some ⟨sha256hex content, st.sizeInfo.getD 0⟩) ∧
    calculate_sha256 (Except.ok content) = sha256hex content ∧
    (sha256hex content).length = 64 ∧
    ∀ c ∈ (sha256hex content).data, c ∈ hexChars := by
  refine ⟨?_, calculate_sha256_ok content, sha256hex_length content, sha256hex_chars content⟩
  rw [generate_manifest_some p t hnd]
  simp only [Except.map]
  rw [manifestOf_lookup p t hnd rel st hmem]
  simp [recordOf, hread, calculate_sha256_ok]

/-- C2: the keys of the produced `files` mapping are exactly the relative
paths of the regular files reachable by recursive descent from the root
(`walkTree`), and the entries are processed in lexicographic
(code-point) order of relative path, whatever order the filesystem
enumerated them in. -/
theorem manifest_keys_exact_and_sorted (p : String) (t : DirTree)
    (hnd : ((walkTree "" t).map Prod.fst).Nodup) :
    (generate_manifest p (some t)).map (fun out => out.manifest.files.map Prod.fst) =
      Except.ok ((sortedWalk t).map Prod.fst) ∧
    ((sortedWalk t).map Prod.fst).Perm ((walkTree "" t).map Prod.fst) ∧
    (∀ k : String, k ∈ (sortedWalk t).map Prod.fst ↔ k ∈ (walkTree "" t).map Prod.fst) ∧
    List.Pairwise (fun a b : String => strLe a b = true) ((sortedWalk t).map Prod.fst) := by
  refine ⟨?_, (sortedWalk_perm t).map Prod.fst,
    fun k => ((sortedWalk_perm t).map Prod.fst).mem_iff, sortedWalk_keys_sorted t⟩
  rw [generate_manifest_some p t hnd]
  simp [Except.map, manifestOf_files_keys]

/-- C3: `total_files` equals the number of entries of the `files` mapping,
and every discovered relative path occurs as a key exactly once. -/
theorem total_files_counts_entries (p : String) (t : DirTree)
    (hnd : ((walkTree "" t).map Prod.fst).Nodup) :
    (generate_manifest p (some t)).map (fun out => out.manifest.total_files) =
      (generate_manifest p (some t)).map (fun out => out.manifest.files.length) ∧
    ∀ rel ∈ (walkTree "" t).map Prod.fst,
      (generate_manifest p (some t)).map
        (fun out => (out.manifest.files.map Prod.fst).count rel) = Except.ok 1 := by
  constructor
  · rw [generate_manifest_some p t hnd]
    simp [Except.map, manifestOf, (sortedWalk_perm t).length_eq]
  · intro rel hrel
    rw [generate_manifest_some p t hnd]
    simp only [Except.map, Except.ok.injEq]
    rw [manifestOf_files_keys]
    exact List.count_eq_one_of_mem (sortedWalk_keys_nodup t hnd)
      (((sortedWalk_perm t).map Prod.fst).mem_iff.mpr hrel)

/-- C4: an I/O failure while reading one file is contained to that file:
its record's checksum field is the sentinel `"ERROR: <description>"`, every
other walked file still gets its normal record, the manifest is written,
and the run succeeds (exit status 0). -/
theorem read_error_contained (p : String) (t : DirTree)
    (hnd : ((walkTree "" t).map Prod.fst).Nodup)
    (rel : String) (st : FileState) (emsg : String)
    (hmem : (rel, st) ∈ walkTree "" t) (herr : st.readResult = Except.error emsg) :
    (∃ out, generate_manifest p (some t) = Except.ok out) ∧
    (generate_manifest p (some t)).map (fun out => lookupKey rel out.manifest.files) =
      Except.ok (some ⟨"ERROR: " ++ emsg, st.sizeInfo.getD 0⟩) ∧
    (generate_manifest p (some t)).map (fun out => out.writtenPath) =
      Except.ok (joinName p "manifest.json") ∧
    ∀ (rel2 : String) (st2 : FileState), (rel2, st2) ∈ walkTree "" t →
      (generate_manifest p (some t)).map (fun out => lookupKey rel2 out.manifest.files) =
        Except.ok (some (recordOf st2)) := by
  refine ⟨⟨_, generate_manifest_some p t hnd⟩, ?_, ?_, ?_⟩
  · rw [generate_manifest_some p t hnd]
    simp only [Except.map]
    rw [manifestOf_lookup p t hnd rel st hmem]
    simp [recordOf, herr, calculate_sha256]
  · rw [generate_manifest_some p t hnd]
    simp [Except.map]
  · intro rel2 st2 hmem2
    rw [generate_manifest_some p t hnd]
    simp only [Except.map]
    rw [manifestOf_lookup p t hnd rel2 st2 hmem2]

/-- C5: a missing root directory is fatal before any checksum work: the
process exits with status 1 after a diagnostic on the error stream, and no
manifest file is written. -/
theorem missing_root_exits_one (p : String) :
    generate_manifest p none =
      Except.error (1, "ERROR: Stage directory " ++ p ++ " does not exist") ∧
    writtenFiles (generate_manifest p none) = [] :=
  ⟨rfl, rfl⟩

/-- C6: the manifest's `timestamp` is derived from the root directory's
name alone: the portion after the first underscore when one is present,
the literal `"unknown"` otherwise. -/
theorem timestamp_from_dir_name (p : String) (t : DirTree) :
    (generate_manifest p (some t)).map (fun out => out.manifest.timestamp) =
      Except.ok (timestampOf (pathName p)) ∧
    (∀ name : String, name.data.contains '_' = true →
      timestampOf name = specAfterUnderscore name) ∧
    (∀ name : String, name.data.contains '_' = false → timestampOf name = "unknown") := by
  refine ⟨?_, ?_, ?_⟩
  · simp [generate_manifest, Except.map]
  · intro name hu
    unfold timestampOf
    rw [if_pos hu, afterFirstUnderscore_eq_spec]
    rfl
  · intro name hu
    unfold timestampOf
    rw [if_neg (fun h => by rw [hu] at h; exact Bool.noConfusion h)]

/-- C7: the size is looked up independently of the hash read; a file that
no longer exists at that moment gets `size_bytes = 0` and the run still
succeeds. -/
theorem vanished_file_size_zero (p : String) (t : DirTree)
    (hnd : ((walkTree "" t).map Prod.fst).Nodup)
    (rel : String) (st : FileState)
    (hmem : (rel, st) ∈ walkTree "" t) (hgone : st.sizeInfo = none) :
    (∃ out, generate_manifest p (some t) = Except.ok out) ∧
    (generate_manifest p (some t)).map (fun out => lookupKey rel out.manifest.files) =
      Except.ok (some ⟨calculate_sha256 st.readResult, 0⟩) := by
  refine ⟨⟨_, generate_manifest_some p t hnd⟩, ?_⟩
  rw [generate_manifest_some p t hnd]
  simp only [Except.map]
  rw [manifestOf_lookup p t hnd rel st hmem]
  simp [recordOf, hgone]

/-- C8: the run writes to the fixed name `manifest.json` inside the root a
JSON document with keys sorted at every level and 2-space indentation, and
every per-file entry is an object with exactly the fields `sha256` and
`size_bytes`.  (The byte-exact rendering of the scenario manifest is
checked in the witness.) -/
theorem manifest_file_format (p : String) (t : DirTree)
    (hnd : ((walkTree "" t).map Prod.fst).Nodup) :
    (generate_manifest p (some t)).map (fun out => out.writtenPath) =
      Except.ok (joinName p "manifest.json") ∧
    (generate_manifest p (some t)).map (fun out => out.writtenText) =
      Except.ok (renderManifest (manifestOf p t)) ∧
    (∀ m : Manifest, renderManifest m =
      "\x7b\n  \"files\": " ++ renderFiles m.files ++ ",\n  \"timestamp\": " ++
      renderString m.timestamp ++ ",\n  \"total_files\": " ++ toString m.total_files ++
      "\n\x7d") ∧
    (∀ m : Manifest, List.Pairwise (fun a b : String => strLe a b = true)
      ((List.insertionSort keyLe m.files).map Prod.fst)) ∧
    (∀ q : String × FileRecord, renderEntry q =
      "    " ++ renderString q.1 ++ ": \x7b\n      \"sha256\": " ++ renderString q.2.sha256 ++
      ",\n      \"size_bytes\": " ++ toString q.2.size_bytes ++ "\n    \x7d") := by
  refine ⟨?_, ?_, fun m => rfl, ?_, fun q => rfl⟩
  · rw [generate_manifest_some p t hnd]
    simp [Except.map]
  · rw [generate_manifest_some p t hnd]
    simp [Except.map]
  · intro m
    exact (List.sorted_insertionSort keyLe m.files).map Prod.fst (fun _ _ h => h)

/-- C9: two runs over the same unchanged directory — however the
filesystem happens to enumerate it — produce identical `files` content,
byte-identical once rendered, and the `timestamp` depends only on the root
directory's name. -/
theorem rerun_byte_identical (p : String) (t1 t2 : DirTree)
    (hperm : (walkTree "" t1).Perm (walkTree "" t2))
    (hnd : ((walkTree "" t1).map Prod.fst).Nodup) :
    (generate_manifest p (some t1)).map (fun out => out.manifest.files) =
      (generate_manifest p (some t2)).map (fun out => out.manifest.files) ∧
    (generate_manifest p (some t1)).map (fun out => renderFiles out.manifest.files) =
      (generate_manifest p (some t2)).map (fun out => renderFiles out.manifest.files) ∧
    ∀ (q : String) (u1 u2 : DirTree),
      (generate_manifest q (some u1)).map (fun out => out.manifest.timestamp) =
        (generate_manifest q (some u2)).map (fun out => out.manifest.timestamp) := by
  have hnd2 : ((walkTree "" t2).map Prod.fst).Nodup := ((hperm.map Prod.fst).nodup_iff).mp hnd
  have hsw := sortedWalk_eq_of_perm t1 t2 hperm hnd
  have hlen := hperm.length_eq
  refine ⟨?_, ?_, ?_⟩
  · rw [generate_manifest_some p t1 hnd, generate_manifest_some p t2 hnd2]
    simp [Except.map, manifestOf, hsw]
  · rw [generate_manifest_some p t1 hnd, generate_manifest_some p t2 hnd2]
    simp [Except.map, manifestOf, hsw]
  · intro q u1 u2
    simp [generate_manifest, Except.map]

/-- C10: `calculate_sha256` is total on read outcomes — every exception is
caught — and always returns either a 64-character lowercase hexadecimal
digest or a string beginning with `"ERROR: "`. -/
theorem calculate_sha256_always_returns (r : Except String (List Nat)) :
    ((calculate_sha256 r).length = 64 ∧ ∀ c ∈ (calculate_sha256 r).data, c ∈ hexChars) ∨
    (calculate_sha256 r).data.take 7 = "ERROR: ".data := by
  cases r with
  | ok content =>
    left
    rw [calculate_sha256_ok]
    exact ⟨sha256hex_length content, sha256hex_chars content⟩
  | error e =>
    right
    show ("ERROR: " ++ e).data.take 7 = "ERROR: ".data
    exact error_string_take e

/-! ## Witnesses -/

/-- Witness for C1 at the spec's scenario: `a.txt` (content "hi") and
`sub/b.txt` (content "bye") get exactly their SHA-256 digests, sizes equal
the content lengths, and `total_files` is 2. -/
theorem readable_checksum_is_sha256_witness :
    ((walkTree "" scenarioTree).map Prod.fst).Nodup ∧
    ("a.txt", stateA) ∈ walkTree "" scenarioTree ∧
    (generate_manifest "staging" (some scenarioTree)).map
        (fun out => lookupKey "a.txt" out.manifest.files) =
      Except.ok (some ⟨sha256hex contentHi, stateA.sizeInfo.getD 0⟩) ∧
    sha256hex contentHi =
      "8f434346648f6b96df89dda901c5176b10a6d83961dd3c1ac88b59b2dc327aa4" ∧
    sha256hex contentBye =
      "b49f425a7e1f9cff3856329ada223f2f9d368f15a00cf48df16ca95986137fe8" ∧
    (generate_manifest "staging" (some scenarioTree)).map
        (fun out => out.manifest.total_files) = Except.ok 2 ∧
    (generate_manifest "staging" (some scenarioTree)).map
        (fun out => lookupKey "sub/b.txt" out.manifest.files) =
      Except.ok (some
        ⟨"b49f425a7e1f9cff3856329ada223f2f9d368f15a00cf48df16ca95986137fe8", 3⟩) ∧
    contentHi.length = 2 ∧ contentBye.length = 3 :=
  ⟨by decide, by decide,
   (readable_checksum_is_sha256 "staging" scenarioTree (by decide) "a.txt" stateA contentHi
     (by decide) rfl).1,
   by decide, by decide, by decide, by decide, by decide, by decide⟩

/-- Witness for C2 at the scenario root: the manifest keys are exactly
`a.txt` and `sub/b.txt`, in sorted order. -/
theorem manifest_keys_exact_and_sorted_witness :
    ((walkTree "" scenarioTree).map Prod.fst).Nodup ∧
    (generate_manifest "staging" (some scenarioTree)).map
        (fun out => out.manifest.files.map Prod.fst) =
      Except.ok ((sortedWalk scenarioTree).map Prod.fst) ∧
    (sortedWalk scenarioTree).map Prod.fst = ["a.txt", "sub/b.txt"] ∧
    (walkTree "" scenarioTree).map Prod.fst = ["a.txt", "sub/b.txt"] :=
  ⟨by decide,
   (manifest_keys_exact_and_sorted "staging" scenarioTree (by decide)).1,
   by decide, by decide⟩

/-- Witness for C3 at the scenario root: `total_files` (2) equals the entry
count, and each of the two discovered paths occurs exactly once. -/
theorem total_files_counts_entries_witness :
    ((walkTree "" scenarioTree).map Prod.fst).Nodup ∧
    "a.txt" ∈ (walkTree "" scenarioTree).map Prod.fst ∧
    (generate_manifest "staging" (some scenarioTree)).map
        (fun out => out.manifest.total_files) =
      (generate_manifest "staging" (some scenarioTree)).map
        (fun out => out.manifest.files.length) ∧
    (generate_manifest "staging" (some scenarioTree)).map
        (fun out => (out.manifest.files.map Prod.fst).count "a.txt") = Except.ok 1 ∧
    (generate_manifest "staging" (some scenarioTree)).map
        (fun out => out.manifest.files.length) = Except.ok 2 :=
  ⟨by decide, by decide,
   (total_files_counts_entries "staging" scenarioTree (by decide)).1,
   (total_files_counts_entries "staging" scenarioTree (by decide)).2 "a.txt" (by decide),
   by decide⟩

/-- Witness for C4: in a root where `bad.txt` raises `Permission denied`,
its record's checksum is the `ERROR:` sentinel, `a.txt` keeps its normal
record, and the run still succeeds. -/
theorem read_error_contained_witness :
    ((walkTree "" errorTree).map Prod.fst).Nodup ∧
    ("bad.txt", stateErr) ∈ walkTree "" errorTree ∧
    stateErr.readResult = Except.error "Permission denied" ∧
    (generate_manifest "staging" (some errorTree)).map
        (fun out => lookupKey "bad.txt" out.manifest.files) =
      Except.ok (some ⟨"ERROR: " ++ "Permission denied", stateErr.sizeInfo.getD 0⟩) ∧
    ("ERROR: " ++ "Permission denied" : String) = "ERROR: Permission denied" ∧
    (generate_manifest "staging" (some errorTree)).map
        (fun out => lookupKey "a.txt" out.manifest.files) =
      Except.ok (some (recordOf stateA)) ∧
    (generate_manifest "staging" (some errorTree)).map
        (fun out => out.writtenPath) = Except.ok (joinName "staging" "manifest.json") :=
  ⟨by decide, by decide, rfl,
   (read_error_contained "staging" errorTree (by decide) "bad.txt" stateErr
     "Permission denied" (by decide) rfl).2.1,
   by decide,
   (read_error_contained "staging" errorTree (by decide) "bad.txt" stateErr
     "Permission denied" (by decide) rfl).2.2.2 "a.txt" stateA (by decide),
   (read_error_contained "staging" errorTree (by decide) "bad.txt" stateErr
     "Permission denied" (by decide) rfl).2.2.1⟩

/-- Witness for C6: a root named `staging_20240101` yields timestamp
`20240101`; a root whose name lacks an underscore yields `unknown`. -/
theorem timestamp_from_dir_name_witness :
    (generate_manifest "staging_20240101" (some scenarioTree)).map
        (fun out => out.manifest.timestamp) =
      Except.ok (timestampOf (pathName "staging_20240101")) ∧
    ("staging_20240101" : String).data.contains '_' = true ∧
    timestampOf "staging_20240101" = specAfterUnderscore "staging_20240101" ∧
    specAfterUnderscore "staging_20240101" = "20240101" ∧
    timestampOf (pathName "staging_20240101") = "20240101" ∧
    ("plain" : String).data.contains '_' = false ∧
    timestampOf "plain" = "unknown" :=
  ⟨(timestamp_from_dir_name "staging_20240101" scenarioTree).1,
   by decide,
   (timestamp_from_dir_name "staging_20240101" scenarioTree).2.1 "staging_20240101"
     (by decide),
   by decide, by decide, by decide,
   (timestamp_from_dir_name "staging_20240101" scenarioTree).2.2 "plain" (by decide)⟩

/-- Witness for C7: a root whose single file vanished before the size
lookup records `size_bytes = 0` and the run succeeds. -/
theorem vanished_file_size_zero_witness :
    ((walkTree "" goneTree).map Prod.fst).Nodup ∧
    ("gone.txt", stateGone) ∈ walkTree "" goneTree ∧
    stateGone.sizeInfo = none ∧
    (generate_manifest "staging" (some goneTree)).map
        (fun out => lookupKey "gone.txt" out.manifest.files) =
      Except.ok (some ⟨calculate_sha256 stateGone.readResult, 0⟩) :=
  ⟨by decide, by decide, rfl,
   (vanished_file_size_zero "staging" goneTree (by decide) "gone.txt" stateGone
     (by decide) rfl).2⟩

/-- Witness for C8: the scenario manifest is written to
`staging/manifest.json`, and its full text is byte-for-byte the sorted,
2-space-indented JSON document with exactly `sha256` and `size_bytes` in
each entry. -/
theorem manifest_file_format_witness :
    ((walkTree "" scenarioTree).map Prod.fst).Nodup ∧
    (generate_manifest "staging" (some scenarioTree)).map
        (fun out => out.writtenPath) = Except.ok (joinName "staging" "manifest.json") ∧
    joinName "staging" "manifest.json" = "staging/manifest.json" ∧
    (generate_manifest "staging" (some scenarioTree)).map
        (fun out => out.writtenText) =
      Except.ok (renderManifest (manifestOf "staging" scenarioTree)) ∧
    renderManifest (manifestOf "staging" scenarioTree) =
      "\x7b\n  \"files\": \x7b\n    \"a.txt\": \x7b\n      \"sha256\": \"8f434346648f6b96df89dda901c5176b10a6d83961dd3c1ac88b59b2dc327aa4\",\n      \"size_bytes\": 2\n    \x7d,\n    \"sub/b.txt\": \x7b\n      \"sha256\": \"b49f425a7e1f9cff3856329ada223f2f9d368f15a00cf48df16ca95986137fe8\",\n      \"size_bytes\": 3\n    \x7d\n  \x7d,\n  \"timestamp\": \"unknown\",\n  \"total_files\": 2\n\x7d" :=
  ⟨by decide,
   (manifest_file_format "staging" scenarioTree (by decide)).1,
   by decide,
   (manifest_file_format "staging" scenarioTree (by decide)).2.1,
   by decide⟩

/-- Witness for C9: the same root enumerated in two different orders
produces identical `files` content; the enumerations really differ. -/
theorem rerun_byte_identical_witness :
    (walkTree "" errorTree).Perm (walkTree "" errorTree2) ∧
    ((walkTree "" errorTree).map Prod.fst).Nodup ∧
    walkTree "" errorTree ≠ walkTree "" errorTree2 ∧
    (generate_manifest "staging" (some errorTree)).map (fun out => out.manifest.files) =
      (generate_manifest "staging" (some errorTree2)).map (fun out => out.manifest.files) ∧
    (generate_manifest "staging" (some errorTree)).map
        (fun out => renderFiles out.manifest.files) =
      (generate_manifest "staging" (some errorTree2)).map
        (fun out => renderFiles out.manifest.files) :=
  ⟨by decide, by decide, by decide,
   (rerun_byte_identical "staging" errorTree errorTree2 (by decide) (by decide)).1,
   (rerun_byte_identical "staging" errorTree errorTree2 (by decide) (by decide)).2.1⟩
